import Mathlib

set_option maxRecDepth 100000

/-!
Verification of the desmos-animate pipeline (src/main.js) against its
natural-language specification.  The JavaScript program is shallowly
embedded: JS numbers are modelled as rationals extended with NaN and the
two infinities, the Desmos expression list as a list of records, the
capture loop and the video-assembly schedule as explicit executable
functions, and promise/observer behaviour as explicit state values.
-/

/-- A JavaScript number as used by this program: a rational, NaN, or an
infinity.  Floating-point rounding is abstracted away (rationals), but the
IEEE special values that the source can actually produce (`0/0` is `NaN` in
JS) are represented exactly. -/
inductive JSNum where
  | nan : JSNum
  | posInf : JSNum
  | negInf : JSNum
  | num : ℚ → JSNum
deriving DecidableEq

/-- JS `+` on the extended numbers. -/
def jsAdd : JSNum → JSNum → JSNum
  | JSNum.nan, _ => JSNum.nan
  | _, JSNum.nan => JSNum.nan
  | JSNum.posInf, JSNum.negInf => JSNum.nan
  | JSNum.negInf, JSNum.posInf => JSNum.nan
  | JSNum.posInf, _ => JSNum.posInf
  | _, JSNum.posInf => JSNum.posInf
  | JSNum.negInf, _ => JSNum.negInf
  | _, JSNum.negInf => JSNum.negInf
  | JSNum.num a, JSNum.num b => JSNum.num (a + b)

/-- JS `*` on the extended numbers (`Infinity * 0` is `NaN`). -/
def jsMul : JSNum → JSNum → JSNum
  | JSNum.nan, _ => JSNum.nan
  | _, JSNum.nan => JSNum.nan
  | JSNum.posInf, JSNum.posInf => JSNum.posInf
  | JSNum.posInf, JSNum.negInf => JSNum.negInf
  | JSNum.negInf, JSNum.posInf => JSNum.negInf
  | JSNum.negInf, JSNum.negInf => JSNum.posInf
  | JSNum.posInf, JSNum.num b =>
      if b = 0 then JSNum.nan else if 0 < b then JSNum.posInf else JSNum.negInf
  | JSNum.num a, JSNum.posInf =>
      if a = 0 then JSNum.nan else if 0 < a then JSNum.posInf else JSNum.negInf
  | JSNum.negInf, JSNum.num b =>
      if b = 0 then JSNum.nan else if 0 < b then JSNum.negInf else JSNum.posInf
  | JSNum.num a, JSNum.negInf =>
      if a = 0 then JSNum.nan else if 0 < a then JSNum.negInf else JSNum.posInf
  | JSNum.num a, JSNum.num b => JSNum.num (a * b)

/-- JS `/` on the extended numbers: `0/0` is `NaN`, `x/0` for `x ≠ 0` is a
signed infinity (the single rational zero plays the role of `+0`). -/
def jsDiv : JSNum → JSNum → JSNum
  | JSNum.nan, _ => JSNum.nan
  | _, JSNum.nan => JSNum.nan
  | JSNum.posInf, JSNum.posInf => JSNum.nan
  | JSNum.posInf, JSNum.negInf => JSNum.nan
  | JSNum.negInf, JSNum.posInf => JSNum.nan
  | JSNum.negInf, JSNum.negInf => JSNum.nan
  | JSNum.posInf, JSNum.num b => if 0 ≤ b then JSNum.posInf else JSNum.negInf
  | JSNum.negInf, JSNum.num b => if 0 ≤ b then JSNum.negInf else JSNum.posInf
  | JSNum.num _, JSNum.posInf => JSNum.num 0
  | JSNum.num _, JSNum.negInf => JSNum.num 0
  | JSNum.num a, JSNum.num b =>
      if b = 0 then
        (if a = 0 then JSNum.nan else if 0 < a then JSNum.posInf else JSNum.negInf)
      else JSNum.num (a / b)

/-- The render settings object fixed at process start
(`{ duration, frames, resolution }` in the source). -/
structure RenderSettings where
  duration : ℚ
  frames : ℕ
  resolution : ℚ
deriving DecidableEq

/-- The normalized viewport rectangle returned by `getMathBounds`. -/
structure MathBounds where
  left : ℚ
  right : ℚ
  bottom : ℚ
  top : ℚ
deriving DecidableEq

/-- Function `getMathBounds` (src/main.js lines 127-134): reads the four corner
bindings and normalizes them with `Math.min` / `Math.max`. -/
def getMathBounds (x1 x2 y1 y2 : ℚ) : MathBounds :=
  { left := min x1 x2
    right := max x1 x2
    bottom := min y1 y2
    top := max y1 y2 }

/-- The screenshot options object built by `render` (src/main.js lines
163-168): pixel dimensions are viewport span times resolution, floored. -/
structure ScreenshotOpts where
  width : ℤ
  height : ℤ
  mathBounds : MathBounds
deriving DecidableEq

/-- Function `render` computing the capture options (src/main.js lines
161-168): `width = Math.floor((right - left) * resolution)` and
`height = Math.floor((top - bottom) * resolution)`. -/
def renderOpts (b : MathBounds) (resolution : ℚ) : ScreenshotOpts :=
  { width := ⌊(b.right - b.left) * resolution⌋
    height := ⌊(b.top - b.bottom) * resolution⌋
    mathBounds := b }

/-- The calculator state that `captureFrames` (src/main.js lines 136-159)
reads and mutates: the three chrome display settings (`showGrid`,
`showXAxis`, `showYAxis` of `calc.settings`), the `hidden` flag of the
`bounds` folder expression, and the value assigned to the `bounds time`
binding. -/
structure CaptureState where
  showGrid : Bool
  showXAxis : Bool
  showYAxis : Bool
  boundsHidden : Bool
  timeValue : JSNum
deriving DecidableEq

/-- The chrome-visibility snapshot of a capture state: grid shown, x-axis
shown, y-axis shown, bounds folder hidden. -/
def chromeOf (st : CaptureState) : Bool × Bool × Bool × Bool :=
  (st.showGrid, st.showXAxis, st.showYAxis, st.boundsHidden)

/-- A failure during the capture cycle: the awaited evaluation of a slider
bound failing, or `asyncScreenshot` failing for sample `i`.  The source
installs no handler for either. -/
inductive CaptureError where
  | evalFailed : CaptureError
  | screenshotFailed : ℕ → CaptureError
deriving DecidableEq

/-- The time sampled at loop index `i` (src/main.js line 150):
`min + (i / (settings.frames - 1)) * (max - min)`, computed with JS
arithmetic (for `frames = 1` this is `min + (0/0) * (max-min) = NaN`). -/
def sampleTime (frames : ℕ) (i : ℕ) (tmin tmax : ℚ) : JSNum :=
  jsAdd (JSNum.num tmin)
    (jsMul (jsDiv (JSNum.num (i : ℚ)) (JSNum.num ((frames : ℚ) - 1)))
      (JSNum.num (tmax - tmin)))

/-- The capture loop of `captureFrames` (src/main.js lines 148-153) over the
remaining loop indices: assign the time binding, then take a screenshot
(which `shotOk` may fail); a captured frame is represented by the time value
the binding held when it was taken.  On failure the exception propagates,
leaving the state as it was at that point. -/
def captureLoop (frames : ℕ) (tmin tmax : ℚ) (shotOk : ℕ → Bool) :
    List ℕ → CaptureState → CaptureState × Except CaptureError (List JSNum)
  | [], st => (st, Except.ok [])
  | i :: rest, st =>
    let t := sampleTime frames i tmin tmax
    let st1 := { st with timeValue := t }
    if shotOk i then
      match captureLoop frames tmin tmax shotOk rest st1 with
      | (st2, Except.ok fs) => (st2, Except.ok (t :: fs))
      | (st2, Except.error e) => (st2, Except.error e)
    else (st1, Except.error (CaptureError.screenshotFailed i))

/-- Function `captureFrames` (src/main.js lines 136-159): snapshot chrome
visibility, hide grid/axes and the bounds folder, evaluate the slider's min
and max (`eminOk`/`emaxOk` say whether each awaited evaluation completes,
`tmin`/`tmax` are the evaluated values), run the sampling loop over
`i = 0, …, settings.frames - 1`, then restore the snapshot.  There is no
try/finally in the source, so a failure exits with the state as is. -/
def captureFramesRun (settings : RenderSettings) (eminOk emaxOk : Bool)
    (tmin tmax : ℚ) (shotOk : ℕ → Bool) (st : CaptureState) :
    CaptureState × Except CaptureError (List JSNum) :=
  let st1 : CaptureState :=
    { st with showGrid := false, showXAxis := false, showYAxis := false,
              boundsHidden := true }
  if eminOk = false then (st1, Except.error CaptureError.evalFailed)
  else if emaxOk = false then (st1, Except.error CaptureError.evalFailed)
  else
    match captureLoop settings.frames tmin tmax shotOk
        (List.range settings.frames) st1 with
    | (st2, Except.error e) => (st2, Except.error e)
    | (st2, Except.ok fs) =>
      ({ st2 with boundsHidden := st.boundsHidden, showGrid := st.showGrid,
                  showXAxis := st.showXAxis, showYAxis := st.showYAxis },
       Except.ok fs)

/-- An observable step of `createVideo` (src/main.js lines 21-49), in
execution order: the awaited decode of image `i` (all complete before the
code proceeds), `recorder.start()`, the `setTimeout` registration of the
draw of image `i` at a wall-clock offset, and the `setTimeout` registration
of `recorder.stop()` at a wall-clock offset. -/
inductive VideoEvent where
  | load : ℕ → VideoEvent
  | startRecorder : VideoEvent
  | scheduleDraw : ℕ → ℚ → VideoEvent
  | scheduleStop : ℚ → VideoEvent
deriving DecidableEq

/-- The per-frame delay of `createVideo` (src/main.js line 43):
`1000 * settings.duration / settings.frames`, in milliseconds. -/
def videoDelay (settings : RenderSettings) : ℚ :=
  1000 * settings.duration / (settings.frames : ℚ)

/-- The ordered event trace of `createVideo` (src/main.js lines 39-46):
await all `numImages` image loads, start the recorder, schedule the draw of
image `i` at offset `delay * i`, and schedule `recorder.stop()` at offset
`delay * images.length`. -/
def createVideoTrace (numImages : ℕ) (settings : RenderSettings) :
    List VideoEvent :=
  (List.range numImages).map VideoEvent.load
    ++ [VideoEvent.startRecorder]
    ++ (List.range numImages).map
        (fun i => VideoEvent.scheduleDraw i (videoDelay settings * (i : ℚ)))
    ++ [VideoEvent.scheduleStop (videoDelay settings * (numImages : ℚ))]

/-- The state of a JS promise: still pending, resolved with a value, or
rejected. -/
inductive PromiseState (α : Type) where
  | pending : PromiseState α
  | resolved : α → PromiseState α
  | rejected : PromiseState α
deriving DecidableEq

/-- Function `loadImage` (src/main.js lines 4-10): the returned promise resolves
from the `onload` handler when the image decodes; no `onerror` handler is
ever installed and `rej` is never called, so a failed decode leaves the
promise pending forever.  `decoded` is the decode outcome (the decoded
image, or `none` on failure). -/
def loadImage (decoded : Option ℕ) : PromiseState ℕ :=
  match decoded with
  | some img => PromiseState.resolved img
  | none => PromiseState.pending

/-- JS `Promise.all`: rejected as soon as any input is rejected, resolved
with the list of values once all inputs are resolved, otherwise pending. -/
def promiseAll {α : Type} : List (PromiseState α) → PromiseState (List α)
  | [] => PromiseState.resolved []
  | p :: ps =>
    match p with
    | PromiseState.rejected => PromiseState.rejected
    | PromiseState.pending =>
      match promiseAll ps with
      | PromiseState.rejected => PromiseState.rejected
      | PromiseState.pending => PromiseState.pending
      | PromiseState.resolved _ => PromiseState.pending
    | PromiseState.resolved v =>
      match promiseAll ps with
      | PromiseState.rejected => PromiseState.rejected
      | PromiseState.pending => PromiseState.pending
      | PromiseState.resolved vs => PromiseState.resolved (v :: vs)

/-- The overall promise returned by `createVideo` (src/main.js line 39), as
a function of the decode outcomes of the input frames: the body awaits
`Promise.all(frames.map(loadImage))` before doing anything else, so its
promise tracks that await; when all decodes succeed the assembly proceeds
and the artifact (represented by the ordered list of decoded frames) is
eventually produced. -/
def createVideoResult (decodes : List (Option ℕ)) : PromiseState (List ℕ) :=
  match promiseAll (decodes.map loadImage) with
  | PromiseState.resolved imgs => PromiseState.resolved imgs
  | PromiseState.rejected => PromiseState.rejected
  | PromiseState.pending => PromiseState.pending

/-- The literal `"+0"` appended by `evaluate` (src/main.js line 56). -/
def plusZero : String := "+0"

/-- The latex actually handed to `HelperExpression` by `evaluate`
(src/main.js line 56): the input latex with `"+0"` appended, whatever the
input is. -/
def evaluateLatex (latex : String) : String := latex ++ plusZero

/-- Resolving a JS promise: a no-op unless the promise is still pending. -/
def promiseResolve (p : PromiseState ℚ) (v : ℚ) : PromiseState ℚ :=
  match p with
  | PromiseState.pending => PromiseState.resolved v
  | st => st

/-- What `evaluate` (src/main.js lines 53-58) leaves behind: the state of
the returned promise, and whether the `numericValue` observer is still
attached to the helper expression. -/
structure EvaluateOutcome where
  promise : PromiseState ℚ
  stillObserving : Bool
deriving DecidableEq

/-- Running `evaluate`'s observer (src/main.js line 57) against the
sequence of `numericValue` notifications the helper expression emits: each
notification calls `res(expression.numericValue)`, which only settles a
pending promise; the source never calls `unobserve`, so the observer stays
attached. -/
def runEvaluate (notifs : List ℚ) : EvaluateOutcome :=
  { promise := notifs.foldl promiseResolve PromiseState.pending
    stillObserving := true }

/-- A concrete pre-capture state used by the witnesses: all chrome visible,
bounds folder shown, time binding at 0. -/
def initCaptureState : CaptureState :=
  { showGrid := true, showXAxis := true, showYAxis := true,
    boundsHidden := false, timeValue := JSNum.num 0 }

/-- Slider bounds of an expression (`sliderBounds: { min, max }`). -/
structure SliderBounds where
  min : String
  max : String
deriving DecidableEq

/-- A Desmos expression record, restricted to the properties this program
ever sets.  `none` means the property is not specified; a `setExpression`
call with a record of properties overwrites exactly the specified ones.
`typ` models the API's `type` property. -/
structure DExpr where
  id : String
  typ : Option String
  latex : Option String
  hidden : Option Bool
  secret : Option Bool
  color : Option String
  fill : Option Bool
  folderId : Option String
  title : Option String
  sliderBounds : Option SliderBounds
deriving DecidableEq

/-- An expression record with only an identifier. -/
def mkExpr (i : String) : DExpr :=
  { id := i, typ := none, latex := none, hidden := none, secret := none,
    color := none, fill := none, folderId := none, title := none,
    sliderBounds := none }

def idBounds : String := "bounds"
def idBoundsX1Y1 : String := "bounds x1y1"
def idBoundsX2Y2 : String := "bounds x2y2"
def idBoundsRect : String := "bounds rect"
def idBoundsAnimate : String := "bounds animate"
def idBoundsStartAction : String := "bounds start action"
def idBoundsX1 : String := "bounds x1"
def idBoundsX2 : String := "bounds x2"
def idBoundsY1 : String := "bounds y1"
def idBoundsY2 : String := "bounds y2"
def idBoundsTime : String := "bounds time"
def boundsTitle : String := "Bounds"
def greenColor : String := "GREEN"

/-- Overwrite the specified fields of `e` with those specified by `p`. -/
def mergeField {α : Type} (p e : Option α) : Option α :=
  match p with
  | some v => some v
  | none => e

/-- The update performed by `calc.setExpression` on an existing expression
with the same id: every property specified by the patch is overwritten,
unspecified properties are kept. -/
def applyPatch (e p : DExpr) : DExpr :=
  { id := e.id
    typ := mergeField p.typ e.typ
    latex := mergeField p.latex e.latex
    hidden := mergeField p.hidden e.hidden
    secret := mergeField p.secret e.secret
    color := mergeField p.color e.color
    fill := mergeField p.fill e.fill
    folderId := mergeField p.folderId e.folderId
    title := mergeField p.title e.title
    sliderBounds := mergeField p.sliderBounds e.sliderBounds }

/-- Whether the session contains an expression with identifier `i`
(the `new Set(...).has(...)` check of src/main.js lines 70, 86, 95). -/
def hasId (s : List DExpr) (i : String) : Bool :=
  s.any fun e => e.id == i

/-- API call `calc.setExpression`: update the expression with the patch's id in
place if one exists, otherwise append a new expression carrying exactly the
specified properties. -/
def setExpression (s : List DExpr) (p : DExpr) : List DExpr :=
  if hasId s p.id then
    s.map fun e => if e.id == p.id then applyPatch e p else e
  else s ++ [p]

/-- API call `calc.setExpressions`: apply `setExpression` for each record in
order. -/
def setExpressions (s : List DExpr) (ps : List DExpr) : List DExpr :=
  ps.foldl setExpression s

/-- The folder record set unconditionally by `setup` (src/main.js
line 74). -/
def folderPatch : DExpr :=
  { mkExpr idBounds with hidden := some false, typ := some "folder" }

/-- The `bounds x1y1` draggable point (src/main.js line 77). -/
def x1y1Patch : DExpr :=
  { mkExpr idBoundsX1Y1 with
    secret := some true
    color := some greenColor
    latex := some "\\left(B_{x1},B_{y1}\\right)" }

/-- The `bounds x2y2` draggable point (src/main.js line 78). -/
def x2y2Patch : DExpr :=
  { mkExpr idBoundsX2Y2 with
    secret := some true
    color := some greenColor
    latex := some "\\left(B_{x2},B_{y2}\\right)" }

/-- The `bounds rect` rectangle (src/main.js line 79). -/
def rectPatch : DExpr :=
  { mkExpr idBoundsRect with
    secret := some true
    color := some greenColor
    fill := some false
    latex := some "\\operatorname{polygon}\\left(\\left[\\left(B_{x1},B_{y1}\\right),\\left(B_{x1},B_{y2}\\right),\\left(B_{x2},B_{y2}\\right),\\left(B_{x2},B_{y1}\\right)\\right]\\right)" }

/-- The `bounds animate` control (src/main.js line 82); note its value
`a_{nimate}=0` is set unconditionally on every run. -/
def animatePatch : DExpr :=
  { mkExpr idBoundsAnimate with
    secret := some true
    latex := some "a_{nimate}=0" }

/-- The `bounds start action` control (src/main.js line 83). -/
def startActionPatch : DExpr :=
  { mkExpr idBoundsStartAction with
    secret := some false
    latex := some "a_{nimate} \\to a_{nimate}+1" }

/-- The six records set unconditionally (src/main.js lines 72-84). -/
def mainPatches : List DExpr :=
  [folderPatch, x1y1Patch, x2y2Patch, rectPatch, animatePatch,
   startActionPatch]

/-- The four edge bindings created only when `bounds x1` is absent
(src/main.js lines 86-93). -/
def edgePatches : List DExpr :=
  [{ mkExpr idBoundsX1 with secret := some true, latex := some "B_{x1}=-9.6" },
   { mkExpr idBoundsX2 with secret := some true, latex := some "B_{x2}= 9.6" },
   { mkExpr idBoundsY1 with secret := some true, latex := some "B_{y1}=-5.4" },
   { mkExpr idBoundsY2 with secret := some true, latex := some "B_{y2}= 5.4" }]

/-- The time binding created only when `bounds time` is absent
(src/main.js lines 95-96). -/
def timePatch : DExpr :=
  { mkExpr idBoundsTime with
    latex := some "t_{ime}=0"
    sliderBounds := some { min := "0", max := "1" } }

/-- The folder-placement pass of `setup` (src/main.js lines 100-110): via
`getState`/`setState`, the `bounds` folder gets its title and every other
expression whose id starts with `bounds` is moved into the folder. -/
def placeInFolder (e : DExpr) : DExpr :=
  if e.id == idBounds then { e with title := some boundsTitle }
  else if e.id.startsWith idBounds then { e with folderId := some idBounds }
  else e

/-- Stage 1 of `setup`: the unconditional `setExpressions` call
(src/main.js lines 72-84). -/
def setupStage1 (s : List DExpr) : List DExpr :=
  setExpressions s mainPatches

/-- Stage 2 of `setup`: create the edge bindings only if no expression with
id `bounds x1` was in the session when `setup` started (src/main.js lines
86-93; the id set is computed at line 70, before any mutation). -/
def setupStage2 (s : List DExpr) : List DExpr :=
  if hasId s idBoundsX1 then setupStage1 s
  else setExpressions (setupStage1 s) edgePatches

/-- Stage 3 of `setup`: create the time binding only if no expression with
id `bounds time` was in the session when `setup` started (src/main.js lines
95-96). -/
def setupStage3 (s : List DExpr) : List DExpr :=
  if hasId s idBoundsTime then setupStage2 s
  else setExpression (setupStage2 s) timePatch

/-- Function `setup` (src/main.js lines 69-110) as a transformation of the session's
expression list.  The trailing `HelperExpression` wiring (lines 114-124)
creates observers but does not change the expression list. -/
def setup (s : List DExpr) : List DExpr :=
  (setupStage3 s).map placeInFolder

/-- Claim C3: the Viewport Resolver always returns `left ≤ right` and
`bottom ≤ top`, and the result is invariant under swapping `x1 ↔ x2` or
`y1 ↔ y2`. -/
theorem c3_viewport_normalized (x1 x2 y1 y2 : ℚ) :
    (getMathBounds x1 x2 y1 y2).left ≤ (getMathBounds x1 x2 y1 y2).right
    ∧ (getMathBounds x1 x2 y1 y2).bottom ≤ (getMathBounds x1 x2 y1 y2).top
    ∧ getMathBounds x2 x1 y1 y2 = getMathBounds x1 x2 y1 y2
    ∧ getMathBounds x1 x2 y2 y1 = getMathBounds x1 x2 y1 y2 := by
  refine ⟨min_le_max, min_le_max, ?_, ?_⟩
  · simp [getMathBounds, min_comm, max_comm]
  · simp [getMathBounds, min_comm, max_comm]

/-- Claim C5: capture dimensions are the floored products of viewport span and
resolution; in particular the viewport `[-9.6, 9.6] × [-5.4, 5.4]` at
resolution 10 gives a 192 × 108 capture. -/
theorem c5_render_dimensions :
    (∀ (b : MathBounds) (r : ℚ),
      (renderOpts b r).width = ⌊(b.right - b.left) * r⌋
      ∧ (renderOpts b r).height = ⌊(b.top - b.bottom) * r⌋)
    ∧ (renderOpts (getMathBounds (-9.6) 9.6 (-5.4) 5.4) 10).width = 192
    ∧ (renderOpts (getMathBounds (-9.6) 9.6 (-5.4) 5.4) 10).height = 108 := by
  refine ⟨fun b r => ⟨rfl, rfl⟩, ?_, ?_⟩
  · simp only [renderOpts, getMathBounds]
    norm_num [max_def, min_def]
  · simp only [renderOpts, getMathBounds]
    norm_num [max_def, min_def]

/-- The capture loop never touches the chrome-visibility fields: every
state update in it assigns `timeValue` only. -/
lemma captureLoop_chrome (f : ℕ) (tmin tmax : ℚ) (shotOk : ℕ → Bool) :
    ∀ (idxs : List ℕ) (st : CaptureState),
      chromeOf (captureLoop f tmin tmax shotOk idxs st).1 = chromeOf st := by
  intro idxs
  induction idxs with
  | nil => intro st; rfl
  | cons i rest ih =>
    intro st
    simp only [captureLoop]
    cases hi : shotOk i with
    | false => simp [hi, chromeOf]
    | true =>
      simp only [hi, if_true]
      rcases hrec : captureLoop f tmin tmax shotOk rest
          { st with timeValue := sampleTime f i tmin tmax } with ⟨st2, r⟩
      have h2 := ih { st with timeValue := sampleTime f i tmin tmax }
      rw [hrec] at h2
      cases r <;> simp [hrec] <;> exact h2

/-- When every screenshot succeeds, the capture loop returns the sampled
time of every index in order, and the state after it has the time binding
at the last assigned sample. -/
lemma captureLoop_all_ok (f : ℕ) (tmin tmax : ℚ) (shotOk : ℕ → Bool) :
    ∀ (idxs : List ℕ) (st : CaptureState), (∀ j ∈ idxs, shotOk j = true) →
      captureLoop f tmin tmax shotOk idxs st =
        (idxs.foldl (fun acc j => { acc with timeValue := sampleTime f j tmin tmax }) st,
         Except.ok (idxs.map fun j => sampleTime f j tmin tmax)) := by
  intro idxs
  induction idxs with
  | nil => intro st _; rfl
  | cons i rest ih =>
    intro st h
    have hi : shotOk i = true := h i (List.mem_cons_self i rest)
    have hrest : ∀ j ∈ rest, shotOk j = true :=
      fun j hj => h j (List.mem_cons_of_mem i hj)
    simp only [captureLoop, hi, if_true]
    rw [ih _ hrest]
    simp

/-- Folding time-binding assignments over `0, …, n-1` leaves the binding at
the `n-1` sample. -/
lemma foldl_timeValue (g : ℕ → JSNum) :
    ∀ (n : ℕ), 0 < n → ∀ (st : CaptureState),
      (List.range n).foldl (fun acc j => { acc with timeValue := g j }) st =
        { st with timeValue := g (n - 1) } := by
  intro n
  induction n with
  | zero => exact fun h => absurd h (by omega)
  | succ m ih =>
    intro _ st
    rw [List.range_succ, List.foldl_append]
    rcases Nat.eq_zero_or_pos m with h0 | hm
    · subst h0; simp
    · rw [ih hm st]; simp

/-- The sample formula as a rational when the divisor is nonzero. -/
lemma sampleTime_num (n i : ℕ) (tmin tmax : ℚ) (h : ((n : ℚ) - 1) ≠ 0) :
    sampleTime n i tmin tmax =
      JSNum.num (tmin + ((i : ℚ) / ((n : ℚ) - 1)) * (tmax - tmin)) := by
  simp [sampleTime, jsDiv, jsMul, jsAdd, h]

lemma cast_sub_one_ne (n : ℕ) (h : 2 ≤ n) : ((n : ℚ) - 1) ≠ 0 := by
  have h2 : (2 : ℚ) ≤ (n : ℚ) := by exact_mod_cast h
  intro h0
  nlinarith

/-- For `n ≥ 2`, sample 0 is at the evaluated minimum. -/
lemma sampleTime_zero (n : ℕ) (tmin tmax : ℚ) (h : 2 ≤ n) :
    sampleTime n 0 tmin tmax = JSNum.num tmin := by
  rw [sampleTime_num n 0 tmin tmax (cast_sub_one_ne n h)]
  norm_num

/-- For `n ≥ 2`, sample `n-1` is at the evaluated maximum. -/
lemma sampleTime_last (n : ℕ) (tmin tmax : ℚ) (h : 2 ≤ n) :
    sampleTime n (n - 1) tmin tmax = JSNum.num tmax := by
  rw [sampleTime_num n (n - 1) tmin tmax (cast_sub_one_ne n h)]
  have h1 : ((n - 1 : ℕ) : ℚ) = (n : ℚ) - 1 := by
    have : 1 ≤ n := by omega
    push_cast [this]
    ring
  rw [h1, div_self (cast_sub_one_ne n h)]
  ring_nf

/-- For a single frame the source computes `0/0 = NaN` in JS. -/
lemma sampleTime_one_nan (tmin tmax : ℚ) :
    sampleTime 1 0 tmin tmax = JSNum.nan := by
  norm_num [sampleTime, jsDiv, jsMul, jsAdd]

/-- Claim C1 (amended): for frame count `N ≥ 2` the sampler assigns sample `i`
the time `min + i/(N-1)*(max-min)` exactly, with sample 0 at `min` and
sample `N-1` at `max`; for `N = 1` the code has no special case: it
produces exactly one sample, but its time is `NaN` (JS evaluates `0/0` to
`NaN`), not `min`. -/
theorem c1_sample_times (settings : RenderSettings) (tmin tmax : ℚ)
    (st : CaptureState) (shotOk : ℕ → Bool)
    (hok : ∀ j, j < settings.frames → shotOk j = true) :
    (2 ≤ settings.frames →
      (captureFramesRun settings true true tmin tmax shotOk st).2 =
        Except.ok ((List.range settings.frames).map fun (i : ℕ) =>
          JSNum.num (tmin + ((i : ℚ) / ((settings.frames : ℚ) - 1)) * (tmax - tmin)))
      ∧ sampleTime settings.frames 0 tmin tmax = JSNum.num tmin
      ∧ sampleTime settings.frames (settings.frames - 1) tmin tmax = JSNum.num tmax)
    ∧ (settings.frames = 1 →
      (captureFramesRun settings true true tmin tmax shotOk st).2 =
        Except.ok [JSNum.nan]) := by
  have hall : ∀ j ∈ List.range settings.frames, shotOk j = true :=
    fun j hj => hok j (List.mem_range.mp hj)
  constructor
  · intro h2
    refine ⟨?_, sampleTime_zero _ _ _ h2, sampleTime_last _ _ _ h2⟩
    have hmap : ((List.range settings.frames).map fun j =>
        sampleTime settings.frames j tmin tmax) =
        (List.range settings.frames).map fun (i : ℕ) =>
          JSNum.num (tmin + ((i : ℚ) / ((settings.frames : ℚ) - 1)) * (tmax - tmin)) :=
      List.map_congr_left fun i _ =>
        sampleTime_num _ _ _ _ (cast_sub_one_ne _ h2)
    simp only [captureFramesRun]
    rw [captureLoop_all_ok _ _ _ _ _ _ hall]
    simp [hmap]
  · intro h1
    simp only [captureFramesRun]
    rw [captureLoop_all_ok _ _ _ _ _ _ hall]
    simp [h1, List.range_succ, sampleTime_one_nan]

/-- A one-frame capture over `[0, 1]` fully evaluated: the single sample is
taken at `NaN` and the chrome is restored. -/
lemma captureRun_single_nan :
    captureFramesRun ⟨5, 1, 10⟩ true true 0 1 (fun _ => true)
        initCaptureState =
      ({ initCaptureState with timeValue := JSNum.nan },
       Except.ok [JSNum.nan]) := by
  simp [captureFramesRun, List.range_succ, captureLoop, sampleTime_one_nan,
    initCaptureState]

/-- Claim C1 counterexample: with frame count 1 and evaluated range `[0, 1]`, the
single captured sample's time is `NaN`, not the range minimum `0` as the
claim states. -/
theorem c1_counterexample :
    (captureFramesRun ⟨5, 1, 10⟩ true true 0 1 (fun _ => true)
        initCaptureState).2 = Except.ok [JSNum.nan]
    ∧ JSNum.nan ≠ JSNum.num 0 := by
  constructor
  · rw [captureRun_single_nan]
  · decide

/-- Claim C1 witness: at 4 frames over `[0, 1]` the last sample is at the range
maximum 1. -/
theorem c1_sample_times_witness : sampleTime 4 3 0 1 = JSNum.num 1 :=
  ((c1_sample_times ⟨5, 4, 10⟩ 0 1 initCaptureState (fun _ => true)
      (fun _ _ => rfl)).1 (by norm_num)).2.2

/-- Claim C2 (amended): the chrome snapshot is restored only on the success path;
if evaluating either slider bound or any screenshot fails, the restoration
code after the loop never runs and the chrome is left hidden (grid and axes
off, bounds folder hidden), not restored to the snapshot. -/
theorem c2_chrome_restoration (settings : RenderSettings)
    (eminOk emaxOk : Bool) (tmin tmax : ℚ) (shotOk : ℕ → Bool)
    (st : CaptureState) :
    (∀ fs, (captureFramesRun settings eminOk emaxOk tmin tmax shotOk st).2 =
        Except.ok fs →
      chromeOf (captureFramesRun settings eminOk emaxOk tmin tmax shotOk st).1 =
        chromeOf st)
    ∧ (∀ e, (captureFramesRun settings eminOk emaxOk tmin tmax shotOk st).2 =
        Except.error e →
      chromeOf (captureFramesRun settings eminOk emaxOk tmin tmax shotOk st).1 =
        (false, false, false, true)) := by
  cases eminOk with
  | false => exact ⟨fun fs h => by simp [captureFramesRun] at h, fun e _ => rfl⟩
  | true =>
    cases emaxOk with
    | false => exact ⟨fun fs h => by simp [captureFramesRun] at h, fun e _ => rfl⟩
    | true =>
      rcases hrec : captureLoop settings.frames tmin tmax shotOk
          (List.range settings.frames)
          { st with showGrid := false, showXAxis := false, showYAxis := false,
                    boundsHidden := true } with ⟨st2, r⟩
      have hchrome := captureLoop_chrome settings.frames tmin tmax shotOk
        (List.range settings.frames)
        { st with showGrid := false, showXAxis := false, showYAxis := false,
                  boundsHidden := true }
      rw [hrec] at hchrome
      cases r with
      | ok fs =>
        refine ⟨fun fs' _ => ?_, fun e he => ?_⟩
        · simp [captureFramesRun, hrec, chromeOf]
        · simp [captureFramesRun, hrec] at he
      | error e =>
        refine ⟨fun fs' hf => ?_, fun e' _ => ?_⟩
        · simp [captureFramesRun, hrec] at hf
        · simp only [captureFramesRun, hrec]
          exact hchrome

/-- Claim C2 counterexample: with all chrome initially visible, a failure of the
awaited evaluation of the slider minimum leaves the sampler's final chrome
state hidden, different from the pre-capture snapshot. -/
theorem c2_counterexample :
    chromeOf (captureFramesRun ⟨5, 1, 10⟩ false true 0 1 (fun _ => true)
        initCaptureState).1 ≠ chromeOf initCaptureState := by
  decide

/-- Claim C2 witness: the success branch restores the snapshot and the failure
branch leaves the chrome hidden, each at a concrete input. -/
theorem c2_chrome_restoration_witness :
    chromeOf (captureFramesRun ⟨5, 1, 10⟩ true true 0 1 (fun _ => true)
        initCaptureState).1 = chromeOf initCaptureState
    ∧ chromeOf (captureFramesRun ⟨5, 1, 10⟩ false true 0 1 (fun _ => true)
        initCaptureState).1 = (false, false, false, true) :=
  ⟨(c2_chrome_restoration ⟨5, 1, 10⟩ true true 0 1 (fun _ => true)
      initCaptureState).1 [JSNum.nan] (by rw [captureRun_single_nan]),
   (c2_chrome_restoration ⟨5, 1, 10⟩ false true 0 1 (fun _ => true)
      initCaptureState).2 CaptureError.evalFailed rfl⟩

/-- Claim C9: after a successful capture with `N ≥ 2` frames the time binding is
left at the final sampled value, the evaluated range maximum — the
post-loop restoration touches only chrome visibility, never the time
binding. -/
theorem c9_time_left_at_max (settings : RenderSettings) (tmin tmax : ℚ)
    (shotOk : ℕ → Bool) (st : CaptureState)
    (hok : ∀ j, j < settings.frames → shotOk j = true)
    (h2 : 2 ≤ settings.frames) :
    (captureFramesRun settings true true tmin tmax shotOk st).1.timeValue =
      JSNum.num tmax := by
  have hall : ∀ j ∈ List.range settings.frames, shotOk j = true :=
    fun j hj => hok j (List.mem_range.mp hj)
  simp only [captureFramesRun]
  rw [captureLoop_all_ok _ _ _ _ _ _ hall,
    foldl_timeValue _ settings.frames (by omega)]
  simp [sampleTime_last settings.frames tmin tmax h2]

/-- Claim C9 witness: two frames over `[0, 1]` leave the time binding at 1. -/
theorem c9_time_left_at_max_witness :
    (captureFramesRun ⟨5, 2, 10⟩ true true 0 1 (fun _ => true)
        initCaptureState).1.timeValue = JSNum.num 1 :=
  c9_time_left_at_max ⟨5, 2, 10⟩ 0 1 (fun _ => true) initCaptureState
    (fun _ _ => rfl) (by norm_num)

/-- The per-frame delay is positive for positive duration and frame
count. -/
lemma videoDelay_pos (settings : RenderSettings) (hd : 0 < settings.duration)
    (hf : 0 < settings.frames) : 0 < videoDelay settings := by
  have : (0 : ℚ) < (settings.frames : ℚ) := by exact_mod_cast hf
  unfold videoDelay
  positivity

/-- Claim C6: in `createVideo`, all image loads are awaited before the recorder
is started (every load event precedes the start event in the trace); the
draw of image `i` is scheduled at offset `delay * i` and finalization at
offset `delay * frameCount`; for positive duration the scheduled draw
offsets are strictly increasing in input order and finalization is
scheduled strictly after the last draw.  `videoDelay` is in milliseconds,
1000 times the claim's `duration/frameCount`. -/
theorem c6_video_schedule (settings : RenderSettings) (n : ℕ)
    (hd : 0 < settings.duration) (hn : 0 < n)
    (hf : settings.frames = n) :
    ((createVideoTrace n settings)[n]? = some VideoEvent.startRecorder)
    ∧ (∀ k i, (createVideoTrace n settings)[k]? = some (VideoEvent.load i) →
        k < n)
    ∧ (∀ i, i < n → (createVideoTrace n settings)[n + 1 + i]? =
        some (VideoEvent.scheduleDraw i (videoDelay settings * (i : ℚ))))
    ∧ (∀ i j, i < j → j < n →
        videoDelay settings * (i : ℚ) < videoDelay settings * (j : ℚ))
    ∧ ((createVideoTrace n settings)[2 * n + 1]? =
        some (VideoEvent.scheduleStop
          (videoDelay settings * (settings.frames : ℚ))))
    ∧ videoDelay settings * ((n - 1 : ℕ) : ℚ) <
        videoDelay settings * (n : ℚ) := by
  have hdelay : 0 < videoDelay settings :=
    videoDelay_pos settings hd (hf ▸ hn)
  refine ⟨?_, ?_, ?_, ?_, ?_, ?_⟩
  · rw [createVideoTrace, List.append_assoc, List.append_assoc,
      List.getElem?_append_right
      (show (List.map VideoEvent.load (List.range n)).length ≤ n by simp)]
    simp
  · intro k i hk
    by_contra hnk
    push_neg at hnk
    rw [createVideoTrace, List.append_assoc, List.append_assoc,
      List.getElem?_append_right
      (show (List.map VideoEvent.load (List.range n)).length ≤ k by
        simpa using hnk)] at hk
    have hmem := List.getElem?_mem hk
    simp at hmem
  · intro i hi
    rw [createVideoTrace, List.append_assoc, List.append_assoc,
      List.getElem?_append_right
      (show (List.map VideoEvent.load (List.range n)).length ≤ n + 1 + i by
        simp only [List.length_map, List.length_range]; omega)]
    have h1 : n + 1 + i - (List.map VideoEvent.load (List.range n)).length =
        i + 1 := by
      simp only [List.length_map, List.length_range]; omega
    rw [h1, List.singleton_append, List.getElem?_cons_succ,
      List.getElem?_append_left
        (show i < (List.map
            (fun i => VideoEvent.scheduleDraw i (videoDelay settings * (i : ℚ)))
            (List.range n)).length by
          simpa using hi)]
    simp [List.getElem?_range hi]
  · intro i j hij hjn
    have hc : (i : ℚ) < (j : ℚ) := by exact_mod_cast hij
    exact mul_lt_mul_of_pos_left hc hdelay
  · rw [createVideoTrace, List.append_assoc, List.append_assoc,
      List.getElem?_append_right
      (show (List.map VideoEvent.load (List.range n)).length ≤ 2 * n + 1 by
        simp only [List.length_map, List.length_range]; omega)]
    have h1 : 2 * n + 1 - (List.map VideoEvent.load (List.range n)).length =
        n + 1 := by
      simp only [List.length_map, List.length_range]; omega
    rw [h1, List.singleton_append, List.getElem?_cons_succ,
      List.getElem?_append_right
        (show (List.map
            (fun i => VideoEvent.scheduleDraw i (videoDelay settings * (i : ℚ)))
            (List.range n)).length ≤ n by simp)]
    simp [hf]
  · have hc : ((n - 1 : ℕ) : ℚ) < (n : ℚ) := by
      have h : n - 1 < n := by omega
      exact_mod_cast h
    exact mul_lt_mul_of_pos_left hc hdelay

/-- Claim C6 witness: with the source's settings (5 s, 200 frames) and 200
images, the recorder start sits right after the 200 load events. -/
theorem c6_video_schedule_witness :
    (createVideoTrace 200 ⟨5, 200, 10⟩)[200]? =
      some VideoEvent.startRecorder :=
  (c6_video_schedule ⟨5, 200, 10⟩ 200 (by norm_num) (by norm_num) rfl).1

/-- Helper `loadImage` never rejects: no `onerror` handler exists and `rej` is
never invoked. -/
lemma loadImage_ne_rejected (d : Option ℕ) :
    loadImage d ≠ PromiseState.rejected := by
  cases d <;> simp [loadImage]

/-- A `Promise.all` over promises none of which is rejected never
rejects. -/
lemma promiseAll_ne_rejected {α : Type} :
    ∀ (ps : List (PromiseState α)), (∀ p ∈ ps, p ≠ PromiseState.rejected) →
      promiseAll ps ≠ PromiseState.rejected := by
  intro ps
  induction ps with
  | nil => intro _; simp [promiseAll]
  | cons q qs ihq =>
    intro hnr
    have hq : q ≠ PromiseState.rejected := hnr q (List.mem_cons_self q qs)
    have hqs : promiseAll qs ≠ PromiseState.rejected :=
      ihq fun r hr => hnr r (List.mem_cons_of_mem q hr)
    simp only [promiseAll]
    cases q with
    | rejected => exact absurd rfl hq
    | pending =>
      cases hqq : promiseAll qs with
      | rejected => exact absurd hqq hqs
      | pending => simp
      | resolved vs => simp
    | resolved v =>
      cases hqq : promiseAll qs with
      | rejected => exact absurd hqq hqs
      | pending => simp
      | resolved vs => simp

/-- A `Promise.all` over promises none of which is rejected stays pending as
soon as one of them is pending. -/
lemma promiseAll_pending {α : Type} :
    ∀ (ps : List (PromiseState α)), PromiseState.pending ∈ ps →
      (∀ p ∈ ps, p ≠ PromiseState.rejected) →
      promiseAll ps = PromiseState.pending := by
  intro ps
  induction ps with
  | nil => intro h; simp at h
  | cons p rest ih =>
    intro hmem hnr
    have hpnr : p ≠ PromiseState.rejected := hnr p (List.mem_cons_self p rest)
    have hrestnr : ∀ q ∈ rest, q ≠ PromiseState.rejected :=
      fun q hq => hnr q (List.mem_cons_of_mem p hq)
    have hrestne : promiseAll rest ≠ PromiseState.rejected :=
      promiseAll_ne_rejected rest hrestnr
    rcases List.mem_cons.mp hmem with hp | hp
    · subst hp
      simp only [promiseAll]
      cases hqq : promiseAll rest with
      | rejected => exact absurd hqq hrestne
      | pending => simp
      | resolved vs => simp
    · have hrest : promiseAll rest = PromiseState.pending := ih hp hrestnr
      simp only [promiseAll, hrest]
      cases p with
      | rejected => exact absurd rfl hpnr
      | pending => simp
      | resolved v => simp

/-- Claim C7 (amended): if decoding any input image fails, no partial video is
ever produced — but the failure is not surfaced to the caller either:
`loadImage` installs no error handler, so the awaited `Promise.all` and
with it `createVideo`'s promise stay pending forever instead of
rejecting. -/
theorem c7_decode_failure_hangs (decodes : List (Option ℕ))
    (h : none ∈ decodes) :
    createVideoResult decodes = PromiseState.pending := by
  have hmem : PromiseState.pending ∈ decodes.map loadImage := by
    refine List.mem_map.mpr ⟨none, h, rfl⟩
  have hnr : ∀ p ∈ decodes.map loadImage, p ≠ PromiseState.rejected := by
    intro p hp
    rcases List.mem_map.mp hp with ⟨d, _, rfl⟩
    exact loadImage_ne_rejected d
  unfold createVideoResult
  rw [promiseAll_pending (decodes.map loadImage) hmem hnr]

/-- Claim C7 counterexample: with two frames whose second decode fails, the
assembly produces no artifact but also never rejects: the result is a
forever-pending promise, so the failure is not surfaced to the caller as
the claim states. -/
theorem c7_counterexample :
    createVideoResult [some 0, none] = PromiseState.pending
    ∧ createVideoResult [some 0, none] ≠ PromiseState.rejected := by
  constructor
  · rfl
  · show (PromiseState.pending : PromiseState (List ℕ)) ≠ PromiseState.rejected
    simp

/-- Claim C7 witness: a single failing decode leaves the assembly pending. -/
theorem c7_decode_failure_hangs_witness :
    createVideoResult [none] = PromiseState.pending :=
  c7_decode_failure_hangs [none] (List.mem_singleton.mpr rfl)

/-- Once resolved, further resolutions are no-ops. -/
lemma foldl_promiseResolve_resolved (v : ℚ) :
    ∀ (rest : List ℚ),
      rest.foldl promiseResolve (PromiseState.resolved v) =
        PromiseState.resolved v := by
  intro rest
  induction rest with
  | nil => rfl
  | cons w ws ih => simpa [promiseResolve] using ih

/-- Claim C8 (amended): the bridge appends the same `"+0"` to every expression,
constant or computed; the promise resolves exactly once, with the value of
the first notification (later notifications are no-ops on the settled
promise) — but the subscription is never discarded: the source never calls
`unobserve`, so the observer stays attached after resolution. -/
theorem c8_evaluate_bridge (latex : String) (v : ℚ) (rest : List ℚ) :
    evaluateLatex latex = latex ++ plusZero
    ∧ (runEvaluate (v :: rest)).promise = PromiseState.resolved v
    ∧ (runEvaluate (v :: rest)).stillObserving = true := by
  refine ⟨rfl, ?_, rfl⟩
  simp only [runEvaluate, List.foldl_cons, promiseResolve]
  exact foldl_promiseResolve_resolved v rest

/-- Claim C8 counterexample: after the first notification the promise is settled
with its value, yet the observer is still attached — the subscription is
not discarded as the claim states. -/
theorem c8_counterexample :
    (runEvaluate [3]).stillObserving = true
    ∧ (runEvaluate [3]).promise = PromiseState.resolved 3 := by
  exact ⟨rfl, rfl⟩

lemma mergeField_mergeField {α : Type} (a b : Option α) :
    mergeField a (mergeField a b) = mergeField a b := by
  cases a <;> rfl

lemma mergeField_self {α : Type} (a : Option α) : mergeField a a = a := by
  cases a <;> rfl

lemma applyPatch_id (e p : DExpr) : (applyPatch e p).id = e.id := rfl

/-- Patching twice with the same record is the same as patching once. -/
lemma applyPatch_applyPatch (e p : DExpr) :
    applyPatch (applyPatch e p) p = applyPatch e p := by
  simp [applyPatch, mergeField_mergeField]

/-- A freshly created expression absorbs its own creating record. -/
lemma applyPatch_self (p : DExpr) : applyPatch p p = p := by
  cases p
  simp [applyPatch, mergeField_self]

/-- After `setExpression s p`, every expression with `p`'s id absorbs
`p`. -/
lemma absorbed_setExpression_self (s : List DExpr) (p : DExpr) :
    ∀ e ∈ setExpression s p, e.id = p.id → applyPatch e p = e := by
  intro e he hid
  by_cases hh : hasId s p.id = true
  · simp only [setExpression, hh, if_true] at he
    rcases List.mem_map.mp he with ⟨e0, _, rfl⟩
    by_cases hb : (e0.id == p.id) = true
    · simp only [hb, if_true]
      exact applyPatch_applyPatch e0 p
    · simp only [hb, if_false] at hid ⊢
      exact absurd (beq_iff_eq.mpr hid) (by simp [hb])
  · simp only [setExpression, hh, if_false] at he
    rcases List.mem_append.mp he with h1 | h1
    · exfalso
      apply hh
      exact List.any_eq_true.mpr ⟨e, h1, beq_iff_eq.mpr hid⟩
    · rcases List.mem_singleton.mp h1 with rfl
      exact applyPatch_self _

/-- Applying `setExpression` with a record for a different id preserves
absorption. -/
lemma absorbed_setExpression_ne (s : List DExpr) (p q : DExpr)
    (hne : q.id ≠ p.id)
    (h : ∀ e ∈ s, e.id = p.id → applyPatch e p = e) :
    ∀ e ∈ setExpression s q, e.id = p.id → applyPatch e p = e := by
  intro e he hid
  by_cases hh : hasId s q.id = true
  · simp only [setExpression, hh, if_true] at he
    rcases List.mem_map.mp he with ⟨e0, he0, rfl⟩
    by_cases hb : (e0.id == q.id) = true
    · simp only [hb, if_true] at hid ⊢
      rw [applyPatch_id] at hid
      have h1 : e0.id = q.id := beq_iff_eq.mp hb
      exact absurd (h1 ▸ hid) hne
    · simp only [hb, if_false] at hid ⊢
      exact h e0 he0 hid
  · simp only [setExpression, hh, if_false] at he
    rcases List.mem_append.mp he with h1 | h1
    · exact h e h1 hid
    · rcases List.mem_singleton.mp h1 with rfl
      exact absurd hid hne

/-- Absorption of `p` survives a sequence of `setExpression`s in which
every record either targets a different id or is `p` itself. -/
lemma absorbed_setExpressions_cases (p : DExpr) :
    ∀ (ps : List DExpr) (s : List DExpr),
      (∀ q ∈ ps, q.id ≠ p.id ∨ q = p) →
      (∀ e ∈ s, e.id = p.id → applyPatch e p = e) →
      ∀ e ∈ setExpressions s ps, e.id = p.id → applyPatch e p = e := by
  intro ps
  induction ps with
  | nil => intro s _ h; exact h
  | cons q rest ih =>
    intro s hq h
    have hrest : ∀ r ∈ rest, r.id ≠ p.id ∨ r = p :=
      fun r hr => hq r (List.mem_cons_of_mem q hr)
    rcases hq q (List.mem_cons_self q rest) with hne | rfl
    · exact ih (setExpression s q) hrest
        (absorbed_setExpression_ne s p q hne h)
    · exact ih (setExpression s q) hrest (absorbed_setExpression_self s q)

/-- After a sequence of `setExpression`s containing `p` (with no later
record reusing `p`'s id except `p` itself), every expression with `p`'s id
absorbs `p`. -/
lemma absorbed_setExpressions_mem (p : DExpr) :
    ∀ (ps : List DExpr) (s : List DExpr), p ∈ ps →
      (∀ q ∈ ps, q.id = p.id → q = p) →
      ∀ e ∈ setExpressions s ps, e.id = p.id → applyPatch e p = e := by
  intro ps
  induction ps with
  | nil => intro s hp; exact absurd hp (List.not_mem_nil p)
  | cons q rest ih =>
    intro s hp huniq
    have hrest : ∀ r ∈ rest, r.id = p.id → r = p :=
      fun r hr => huniq r (List.mem_cons_of_mem q hr)
    rcases List.mem_cons.mp hp with rfl | hp'
    · refine absorbed_setExpressions_cases p rest (setExpression s p) ?_
        (absorbed_setExpression_self s p)
      intro r hr
      by_cases hid : r.id = p.id
      · exact Or.inr (hrest r hr hid)
      · exact Or.inl hid
    · exact ih (setExpression s q) hp' hrest

lemma placeInFolder_id (e : DExpr) : (placeInFolder e).id = e.id := by
  unfold placeInFolder
  split
  · rfl
  · split
    · rfl
    · rfl

/-- The folder-placement pass is idempotent on each expression. -/
lemma placeInFolder_idem (e : DExpr) :
    placeInFolder (placeInFolder e) = placeInFolder e := by
  cases e with
  | mk i typ latex hidden secret color fill folderId title sliderBounds =>
    by_cases h1 : (i == idBounds) = true
    · simp [placeInFolder, h1]
    · by_cases h2 : i.startsWith idBounds = true
      · simp [placeInFolder, h1, h2]
      · simp [placeInFolder, h1, h2]

/-- The folder pass only writes `title` and `folderId`, so it preserves
absorption of any record that does not specify them. -/
lemma absorbs_placeInFolder (e p : DExpr) (hpt : p.title = none)
    (hpf : p.folderId = none) (h : applyPatch e p = e) :
    applyPatch (placeInFolder e) p = placeInFolder e := by
  cases e with
  | mk i typ latex hidden secret color fill folderId title sliderBounds =>
    by_cases h1 : (i == idBounds) = true
    · simp only [placeInFolder, h1, if_true]
      simp only [applyPatch, DExpr.mk.injEq, true_and] at h ⊢
      obtain ⟨h2, h3, h4, h5, h6, h7, h8, h9, h10⟩ := h
      refine ⟨h2, h3, h4, h5, h6, h7, h8, ?_, h10⟩
      rw [hpt]
      rfl
    · by_cases hst : i.startsWith idBounds = true
      · have hfold : placeInFolder
            (DExpr.mk i typ latex hidden secret color fill folderId title
              sliderBounds) =
            DExpr.mk i typ latex hidden secret color fill (some idBounds)
              title sliderBounds := by
          simp [placeInFolder, h1, hst]
        rw [hfold]
        simp only [applyPatch, DExpr.mk.injEq, true_and] at h ⊢
        obtain ⟨h2, h3, h4, h5, h6, h7, h8, h9, h10⟩ := h
        refine ⟨h2, h3, h4, h5, h6, h7, ?_, h9, h10⟩
        rw [hpf]
        rfl
      · simpa [placeInFolder, h1, hst] using h

/-- Mapping the folder pass preserves absorption of records that do not
specify `title` or `folderId`. -/
lemma absorbed_map_placeInFolder (s : List DExpr) (p : DExpr)
    (hpt : p.title = none) (hpf : p.folderId = none)
    (h : ∀ e ∈ s, e.id = p.id → applyPatch e p = e) :
    ∀ e ∈ s.map placeInFolder, e.id = p.id → applyPatch e p = e := by
  intro e he hid
  rcases List.mem_map.mp he with ⟨e0, he0, rfl⟩
  rw [placeInFolder_id] at hid
  exact absorbs_placeInFolder e0 p hpt hpf (h e0 he0 hid)

lemma list_any_congr {α : Type} (f g : α → Bool) :
    ∀ (l : List α), (∀ x ∈ l, f x = g x) → l.any f = l.any g := by
  intro l
  induction l with
  | nil => intro _; rfl
  | cons x xs ih =>
    intro h
    rw [List.any_cons, List.any_cons, h x (List.mem_cons_self x xs),
      ih fun y hy => h y (List.mem_cons_of_mem x hy)]

lemma hasId_setExpression (s : List DExpr) (p : DExpr) (i : String) :
    hasId (setExpression s p) i = (hasId s i || (p.id == i)) := by
  by_cases hh : hasId s p.id = true
  · simp only [setExpression, hh, if_true]
    have hmap : hasId (s.map fun e =>
        if e.id == p.id then applyPatch e p else e) i = hasId s i := by
      unfold hasId
      rw [List.any_map]
      apply list_any_congr
      intro e _
      by_cases hb : (e.id == p.id) = true
      · simp [Function.comp, hb, applyPatch_id]
      · simp [Function.comp, hb]
    rw [hmap]
    by_cases hpi : (p.id == i) = true
    · have : hasId s i = true := by
        rw [← beq_iff_eq.mp hpi]
        exact hh
      simp [this, hpi]
    · simp [hpi]
  · simp only [setExpression, hh, if_false]
    unfold hasId
    simp [List.any_append]

lemma hasId_setExpressions (ps : List DExpr) :
    ∀ (s : List DExpr) (i : String),
      hasId (setExpressions s ps) i =
        (hasId s i || ps.any fun p => p.id == i) := by
  induction ps with
  | nil => intro s i; simp [setExpressions]
  | cons p rest ih =>
    intro s i
    simp only [setExpressions, List.foldl_cons] at ih ⊢
    rw [ih (setExpression s p) i, hasId_setExpression]
    simp [Bool.or_assoc]

lemma hasId_map_placeInFolder (s : List DExpr) (i : String) :
    hasId (s.map placeInFolder) i = hasId s i := by
  unfold hasId
  rw [List.any_map]
  apply list_any_congr
  intro e _
  simp [Function.comp, placeInFolder_id]

/-- Applying `setExpression` is the identity when the id already exists and every
expression with that id absorbs the record. -/
lemma setExpression_saturated (s : List DExpr) (p : DExpr)
    (h1 : hasId s p.id = true)
    (h2 : ∀ e ∈ s, e.id = p.id → applyPatch e p = e) :
    setExpression s p = s := by
  simp only [setExpression, h1, if_true]
  have : ∀ e ∈ s, (if e.id == p.id then applyPatch e p else e) = e := by
    intro e he
    by_cases hb : (e.id == p.id) = true
    · simp only [hb, if_true]
      exact h2 e he (beq_iff_eq.mp hb)
    · simp [hb]
  calc s.map (fun e => if e.id == p.id then applyPatch e p else e)
      = s.map id := List.map_congr_left fun e he => this e he
    _ = s := List.map_id s

/-- A map whose function fixes every element of the list is the
identity. -/
lemma list_map_self {α : Type} (f : α → α) :
    ∀ (l : List α), (∀ x ∈ l, f x = x) → l.map f = l := by
  intro l
  induction l with
  | nil => intro _; rfl
  | cons x xs ih =>
    intro h
    rw [List.map_cons, h x (List.mem_cons_self x xs),
      ih fun y hy => h y (List.mem_cons_of_mem x hy)]

/-- After `setup`, every expression with the id of one of the six
unconditional records absorbs that record.  The side conditions say the
record is one of the six, no other record in the run reuses its id, and it
specifies neither `title` nor `folderId`. -/
lemma absorbed_setup (p : DExpr) (hmem : p ∈ mainPatches)
    (huniq : ∀ q ∈ mainPatches, q.id = p.id → q = p)
    (hedge : ∀ q ∈ edgePatches, q.id ≠ p.id)
    (htime : timePatch.id ≠ p.id)
    (hpt : p.title = none) (hpf : p.folderId = none)
    (s : List DExpr) :
    ∀ e ∈ setup s, e.id = p.id → applyPatch e p = e := by
  unfold setup
  apply absorbed_map_placeInFolder _ _ hpt hpf
  have h1 : ∀ e ∈ setupStage1 s, e.id = p.id → applyPatch e p = e :=
    absorbed_setExpressions_mem p mainPatches s hmem huniq
  have h2 : ∀ e ∈ setupStage2 s, e.id = p.id → applyPatch e p = e := by
    unfold setupStage2
    split
    · exact h1
    · refine absorbed_setExpressions_cases p edgePatches (setupStage1 s) ?_ h1
      intro q hq
      exact Or.inl (hedge q hq)
  unfold setupStage3
  split
  · exact h2
  · exact absorbed_setExpression_ne (setupStage2 s) p timePatch htime h2

/-- The ids present after `setup`: the original ids, the six unconditional
ids, the edge ids when `bounds x1` was absent, and the time id when
`bounds time` was absent. -/
lemma hasId_setup (s : List DExpr) (i : String) :
    hasId (setup s) i =
      ((hasId s i || (mainPatches.any fun p => p.id == i))
        || (!hasId s idBoundsX1 && (edgePatches.any fun p => p.id == i))
        || (!hasId s idBoundsTime && (timePatch.id == i))) := by
  unfold setup setupStage3 setupStage2 setupStage1
  rw [hasId_map_placeInFolder]
  by_cases hT : hasId s idBoundsTime = true
  · by_cases hX : hasId s idBoundsX1 = true
    · simp [hT, hX, hasId_setExpressions]
    · have hX' : hasId s idBoundsX1 = false := by
        revert hX; cases hasId s idBoundsX1 <;> simp
      simp [hT, hX', hasId_setExpressions, Bool.or_assoc]
  · have hT' : hasId s idBoundsTime = false := by
      revert hT; cases hasId s idBoundsTime <;> simp
    by_cases hX : hasId s idBoundsX1 = true
    · simp [hT', hX, hasId_setExpressions, hasId_setExpression,
        Bool.or_assoc]
    · have hX' : hasId s idBoundsX1 = false := by
        revert hX; cases hasId s idBoundsX1 <;> simp
      simp [hT', hX', hasId_setExpressions, hasId_setExpression,
        Bool.or_assoc]

lemma hasId_setup_of_main (s : List DExpr) (p : DExpr)
    (hp : p ∈ mainPatches) : hasId (setup s) p.id = true := by
  rw [hasId_setup]
  have h : (mainPatches.any fun q => q.id == p.id) = true :=
    List.any_eq_true.mpr ⟨p, hp, beq_self_eq_true p.id⟩
  simp [h]

lemma hasId_setup_x1 (s : List DExpr) :
    hasId (setup s) idBoundsX1 = true := by
  rw [hasId_setup]
  by_cases hX : hasId s idBoundsX1 = true
  · simp [hX]
  · have hX' : hasId s idBoundsX1 = false := by
      revert hX; cases hasId s idBoundsX1 <;> simp
    have he : (edgePatches.any fun p => p.id == idBoundsX1) = true := by
      decide
    simp [hX', he]

lemma hasId_setup_time (s : List DExpr) :
    hasId (setup s) idBoundsTime = true := by
  rw [hasId_setup]
  by_cases hT : hasId s idBoundsTime = true
  · simp [hT]
  · have hT' : hasId s idBoundsTime = false := by
      revert hT; cases hasId s idBoundsTime <;> simp
    have ht : (timePatch.id == idBoundsTime) = true := by decide
    simp [hT', ht]

/-- Every expression produced by `setup` is a fixed point of the folder
pass. -/
lemma setup_placeInFolder_fixed (s : List DExpr) :
    ∀ e ∈ setup s, placeInFolder e = e := by
  intro e he
  rcases List.mem_map.mp he with ⟨e0, _, rfl⟩
  exact placeInFolder_idem e0

/-- Claim C4: running the Session Bootstrapper twice yields exactly the same
expression list as running it once — same binding set, same binding values,
no duplicates, and nothing (values or placement) changed by the second
run. -/
theorem c4_setup_idempotent (s : List DExpr) : setup (setup s) = setup s := by
  have hab1 := absorbed_setup folderPatch (by decide) (by decide) (by decide)
    (by decide) rfl rfl s
  have hab2 := absorbed_setup x1y1Patch (by decide) (by decide) (by decide)
    (by decide) rfl rfl s
  have hab3 := absorbed_setup x2y2Patch (by decide) (by decide) (by decide)
    (by decide) rfl rfl s
  have hab4 := absorbed_setup rectPatch (by decide) (by decide) (by decide)
    (by decide) rfl rfl s
  have hab5 := absorbed_setup animatePatch (by decide) (by decide) (by decide)
    (by decide) rfl rfl s
  have hab6 := absorbed_setup startActionPatch (by decide) (by decide)
    (by decide) (by decide) rfl rfl s
  have e1 : setExpression (setup s) folderPatch = setup s :=
    setExpression_saturated _ _ (hasId_setup_of_main s folderPatch (by decide))
      hab1
  have e2 : setExpression (setup s) x1y1Patch = setup s :=
    setExpression_saturated _ _ (hasId_setup_of_main s x1y1Patch (by decide))
      hab2
  have e3 : setExpression (setup s) x2y2Patch = setup s :=
    setExpression_saturated _ _ (hasId_setup_of_main s x2y2Patch (by decide))
      hab3
  have e4 : setExpression (setup s) rectPatch = setup s :=
    setExpression_saturated _ _ (hasId_setup_of_main s rectPatch (by decide))
      hab4
  have e5 : setExpression (setup s) animatePatch = setup s :=
    setExpression_saturated _ _ (hasId_setup_of_main s animatePatch (by decide))
      hab5
  have e6 : setExpression (setup s) startActionPatch = setup s :=
    setExpression_saturated _ _
      (hasId_setup_of_main s startActionPatch (by decide)) hab6
  have hstage1 : setupStage1 (setup s) = setup s := by
    unfold setupStage1 setExpressions mainPatches
    simp only [List.foldl_cons, List.foldl_nil]
    rw [e1, e2, e3, e4, e5, e6]
  have hstage2 : setupStage2 (setup s) = setup s := by
    unfold setupStage2
    simp only [hasId_setup_x1 s, if_true]
    exact hstage1
  have hstage3 : setupStage3 (setup s) = setup s := by
    unfold setupStage3
    simp only [hasId_setup_time s, if_true]
    exact hstage2
  calc setup (setup s) = (setupStage3 (setup s)).map placeInFolder := rfl
    _ = (setup s).map placeInFolder := by rw [hstage3]
    _ = setup s :=
        list_map_self placeInFolder (setup s) (setup_placeInFolder_fixed s)

/-- Claim C10: the bootstrapper guarantees `bounds x1` exists afterwards, but the other
three edge bindings exist afterwards exactly when `bounds x1` was absent at
the start or they already existed: only `bounds x1` is checked, so with
`bounds x1` present and another edge missing, the missing one is not
created. -/
theorem c10_edge_creation (s : List DExpr) :
    hasId (setup s) idBoundsX1 = true
    ∧ hasId (setup s) idBoundsX2 =
        (!hasId s idBoundsX1 || hasId s idBoundsX2)
    ∧ hasId (setup s) idBoundsY1 =
        (!hasId s idBoundsX1 || hasId s idBoundsY1)
    ∧ hasId (setup s) idBoundsY2 =
        (!hasId s idBoundsX1 || hasId s idBoundsY2) := by
  refine ⟨hasId_setup_x1 s, ?_, ?_, ?_⟩
  · have hm : (mainPatches.any fun p => p.id == idBoundsX2) = false := by
      decide
    have he : (edgePatches.any fun p => p.id == idBoundsX2) = true := by
      decide
    have ht : (timePatch.id == idBoundsX2) = false := by decide
    rw [hasId_setup]
    simp [hm, he, ht, Bool.or_comm]
  · have hm : (mainPatches.any fun p => p.id == idBoundsY1) = false := by
      decide
    have he : (edgePatches.any fun p => p.id == idBoundsY1) = true := by
      decide
    have ht : (timePatch.id == idBoundsY1) = false := by decide
    rw [hasId_setup]
    simp [hm, he, ht, Bool.or_comm]
  · have hm : (mainPatches.any fun p => p.id == idBoundsY2) = false := by
      decide
    have he : (edgePatches.any fun p => p.id == idBoundsY2) = true := by
      decide
    have ht : (timePatch.id == idBoundsY2) = false := by decide
    rw [hasId_setup]
    simp [hm, he, ht, Bool.or_comm]
